import Mathlib

/-
Verification of the floe-cms authentication subsystem
(internal/auth/auth.go and internal/middleware/middleware.go)
against its specification.

Modelling conventions:
* The relational store is embedded as an explicit `DB` value; every
  operation that the Go code performs through gorm is state-passing:
  it receives a `DB` and returns the (possibly updated) `DB`.
* Machine integers (`uint`) are `Nat`; time instants (`time.Time`) are
  `Int` unix instants, compared with `<` exactly as gorm / jwt compare
  `time.Time` values.
* The external JWT library (github.com/golang-jwt/jwt/v5) is embedded
  symbolically: a signed token is a structure carrying the header
  algorithm, the claims payload and a signature.  An HMAC signature is
  modelled as the ideal MAC `Sig.hmac key alg payload` — verification
  succeeds exactly when the stored signature equals the MAC of the
  token's own header algorithm and payload under the verifier's key,
  which is the ideal-model reading of recomputing HMAC over the
  serialized header and payload.  jwt/v5 validates the registered
  `exp` claim with `now.Before(exp)`, i.e. the token is alive iff
  `now < exp`; `iat` is not validated by default.
* The external bcrypt library (golang.org/x/crypto/bcrypt) is embedded
  as an ideal password hash: `bcryptCompare hash pw` succeeds exactly
  when `hash` is the hash of `pw`.
* Randomness (`crypto/rand` used for fresh refresh-token strings) is a
  parameter of the operation that draws it.
-/

namespace FloeCMS

/-! ## Data model, from internal/models/models.go -/

/-- models.Role (id from BaseModel; Description and Permissions are not
read by the auth subsystem and are omitted). -/
structure Role where
  id : Nat
  name : String
  deriving Repr, DecidableEq

/-- models.User (id from BaseModel; fields not read by the auth
subsystem are omitted).  The preloaded `Role` association is looked up
from the `DB` at use sites, mirroring gorm's `Preload("Role")`. -/
structure User where
  id : Nat
  email : String
  passwordHash : String
  roleID : Nat
  active : Bool
  deriving Repr, DecidableEq

/-- models.RefreshToken: one persisted refresh-token row. -/
structure RefreshTokenRow where
  userID : Nat
  token : String
  expiresAt : Int
  revoked : Bool
  deriving Repr, DecidableEq

/-- models.UserWorkspace: the (user, workspace) membership join row. -/
structure UserWorkspace where
  userID : Nat
  workspaceID : Nat
  deriving Repr, DecidableEq

/-- The relational store: the tables the auth subsystem touches. -/
structure DB where
  users : List User
  roles : List Role
  refreshTokens : List RefreshTokenRow
  userWorkspaces : List UserWorkspace
  deriving Repr, DecidableEq

/-- gorm's zero value for `models.User`, produced when a preloaded
association has no matching row. -/
def zeroUser : User :=
  { id := 0, email := "", passwordHash := "", roleID := 0, active := false }

/-- `Preload("Role")`: the role name carried by a loaded user; the zero
value `""` when no role row matches, exactly as gorm leaves the
association zero-valued. -/
def loadRoleName (db : DB) (roleID : Nat) : String :=
  ((db.roles.find? (fun r => r.id == roleID)).map Role.name).getD ""

/-- Membership lookup over the `user_workspaces` table (what an
authorization check against models.UserWorkspace would query). -/
def hasMembership (db : DB) (userID workspaceID : Nat) : Bool :=
  db.userWorkspaces.any (fun m => m.userID == userID && m.workspaceID == workspaceID)

/-! ## JWT embedding (github.com/golang-jwt/jwt/v5) -/

/-- JWT signing algorithms relevant to the keyfunc check in
`Manager.ValidateToken`: the three members of `*jwt.SigningMethodHMAC`
plus representative non-HMAC methods. -/
inductive Alg where
  | HS256
  | HS384
  | HS512
  | RS256
  | noneAlg
  deriving Repr, DecidableEq

/-- The type assertion `token.Method.(*jwt.SigningMethodHMAC)` in the
keyfunc of `Manager.ValidateToken`. -/
def Alg.isHMAC : Alg → Bool
  | .HS256 => true
  | .HS384 => true
  | .HS512 => true
  | .RS256 => false
  | .noneAlg => false

/-- auth.Claims: the JWT claims structure.  `workspaceID` is the
`workspace_id,omitempty` field; `expiresAt`, `issuedAt`, `subject`
come from the embedded jwt.RegisteredClaims. -/
structure Claims where
  userID : Nat
  email : String
  roleID : Nat
  roleName : String
  workspaceID : Nat
  expiresAt : Int
  issuedAt : Int
  subject : String
  deriving Repr, DecidableEq

/-- A token signature.  `hmac key alg payload` is the ideal MAC of the
serialized header (which contains `alg`) and payload under `key`;
`blob` stands for any other byte string (a signature by a non-HMAC
method, a truncated or bit-flipped tag, ...). -/
inductive Sig where
  | hmac (key : String) (alg : Alg) (payload : Claims)
  | blob (data : String)
  deriving Repr, DecidableEq

/-- A compact JWS token: header algorithm, claims payload, signature. -/
structure Token where
  alg : Alg
  payload : Claims
  sig : Sig
  deriving Repr, DecidableEq

/-- Serialization of the header algorithm into the (base64url JSON)
first segment of the compact form. -/
def encodeAlg : Alg → String
  | .HS256 => "HS256"
  | .HS384 => "HS384"
  | .HS512 => "HS512"
  | .RS256 => "RS256"
  | .noneAlg => "none"

/-- Serialization of the claims payload into the second segment of the
compact form (stands for base64url of the claims JSON). -/
def encodeClaims (c : Claims) : String :=
  String.intercalate "|"
    [toString c.userID, c.email, toString c.roleID, c.roleName,
     toString c.workspaceID, toString c.expiresAt, toString c.issuedAt, c.subject]

/-- Serialization of the signature segment. -/
def encodeSig : Sig → String
  | .hmac key alg payload => "hmac:" ++ key ++ ":" ++ encodeAlg alg ++ ":" ++ encodeClaims payload
  | .blob data => "blob:" ++ data

/-- `token.SignedString`: the three dot-separated compact segments. -/
def Token.signedString (t : Token) : String :=
  encodeAlg t.alg ++ "." ++ encodeClaims t.payload ++ "." ++ encodeSig t.sig

/-! ## The authentication manager, from internal/auth/auth.go -/

/-- auth.Manager: JWT secret and the configured token lifetimes (in
the same unit as the `Int` time instants).  The db handle is passed
explicitly to each operation. -/
structure Manager where
  jwtSecret : String
  accessExp : Int
  refreshExp : Int
  deriving Repr, DecidableEq

/-- Ideal model of bcrypt.GenerateFromPassword (an injective one-way
hash; cost and salt are irrelevant to the properties verified here). -/
def bcryptHash (password : String) : String :=
  "bcrypt$" ++ password

/-- Ideal model of bcrypt.CompareHashAndPassword: succeeds exactly when
the hash is the hash of the password. -/
def bcryptCompare (hash password : String) : Bool :=
  hash == bcryptHash password

/-- `Manager.generateAccessToken`: mints the claims from the loaded
user (`roleName` is the preloaded `user.Role.Name`) and signs with
HS256 under the manager's secret.  The `WorkspaceID` field of the Go
claims struct is never assigned, so it carries the zero value. -/
def Manager.generateAccessToken (m : Manager) (now : Int) (user : User)
    (roleName : String) : Token :=
  let claims : Claims :=
    { userID := user.id
      email := user.email
      roleID := user.roleID
      roleName := roleName
      workspaceID := 0
      expiresAt := now + m.accessExp
      issuedAt := now
      subject := toString user.id }
  { alg := .HS256, payload := claims, sig := Sig.hmac m.jwtSecret .HS256 claims }

/-- `Manager.Login`: looks up the user by email, rejects inactive
accounts, verifies the password, then mints an access token and
persists a fresh refresh-token row.  `freshToken` is the hex encoding
of the 32 random bytes drawn by generateRefreshToken. -/
def Manager.Login (m : Manager) (db : DB) (now : Int) (freshToken : String)
    (email password : String) : Except String (Token × String × DB) :=
  match db.users.find? (fun u => u.email == email) with
  | none => .error "invalid credentials"
  | some user =>
    if user.active = false then
      .error "user account is deactivated"
    else if bcryptCompare user.passwordHash password = false then
      .error "invalid credentials"
    else
      let accessToken := m.generateAccessToken now user (loadRoleName db user.roleID)
      let row : RefreshTokenRow :=
        { userID := user.id, token := freshToken,
          expiresAt := now + m.refreshExp, revoked := false }
      .ok (accessToken, freshToken,
           { db with refreshTokens := db.refreshTokens ++ [row] })

/-- `Manager.ValidateToken`: jwt.ParseWithClaims with a keyfunc that
rejects any method that is not `*jwt.SigningMethodHMAC`, then HMAC
signature verification under the manager's secret, then jwt/v5
registered-claims validation (`exp` alive iff `now < exp`). -/
def Manager.ValidateToken (m : Manager) (now : Int) (t : Token) :
    Except String Claims :=
  if t.alg.isHMAC = false then
    .error "unexpected signing method"
  else if t.sig ≠ Sig.hmac m.jwtSecret t.alg t.payload then
    .error "signature is invalid"
  else if now < t.payload.expiresAt then
    .ok t.payload
  else
    .error "token is expired"

/-- The gorm WHERE clause of `Manager.RefreshToken`:
`token = ? AND revoked = ? AND expires_at > ?` with (s, false, now). -/
def refreshRowMatches (s : String) (now : Int) (rt : RefreshTokenRow) : Bool :=
  rt.token == s && rt.revoked == false && now < rt.expiresAt

/-- `Manager.RefreshToken`: finds a live matching refresh-token row
(any failure is the generic `invalid refresh token` error), loads the
owning user and its role (`Preload("User.Role")`), and mints a fresh
access token.  The function performs no store write, so the db is
returned unchanged. -/
def Manager.RefreshToken (m : Manager) (db : DB) (now : Int) (s : String) :
    Except String (Token × DB) :=
  match db.refreshTokens.find? (refreshRowMatches s now) with
  | none => .error "invalid refresh token"
  | some rt =>
    let user := (db.users.find? (fun u => u.id == rt.userID)).getD zeroUser
    .ok (m.generateAccessToken now user (loadRoleName db user.roleID), db)

/-- `Manager.RevokeToken`: `UPDATE refresh_tokens SET revoked = true
WHERE token = s`; `RowsAffected` counts the matched rows (sqlite /
postgres semantics), so a row that is already revoked still counts. -/
def Manager.RevokeToken (_m : Manager) (db : DB) (s : String) :
    Except String DB :=
  let updated :=
    db.refreshTokens.map
      (fun rt => if rt.token == s then { rt with revoked := true } else rt)
  if db.refreshTokens.countP (fun rt => rt.token == s) = 0 then
    .error "token not found"
  else
    .ok { db with refreshTokens := updated }

/-! ## Middleware, from internal/middleware/middleware.go -/

/-- The outcome of a middleware gate: pass the request through, or
respond with an error status. -/
inductive GateDecision where
  | allow
  | denyBadRequest (msg : String)
  | denyForbidden (msg : String)
  deriving Repr, DecidableEq

/-- utils.ParseUint: strconv.ParseUint(s, 10, 32), with 0 on any
parse error (bad syntax or 32-bit overflow). -/
def ParseUint (s : String) : Nat :=
  match s.toNat? with
  | some n => if n < 2 ^ 32 then n else 0
  | none => 0

/-- middleware.RequireWorkspace, after claims extraction: requires a
`workspace_id` query parameter; non-admins are denied only when the
workspace id in the claims is nonzero and differs from the requested
one (the membership table is not consulted). -/
def RequireWorkspace (claims : Claims) (workspaceIDParam : String) : GateDecision :=
  if workspaceIDParam == "" then
    .denyBadRequest "Workspace ID required"
  else if claims.roleName != "admin" &&
      (claims.workspaceID != 0 && claims.workspaceID != ParseUint workspaceIDParam) then
    .denyForbidden "Access denied to this workspace"
  else
    .allow

/-! ## Generic helpers -/

/-- Whether an Except-valued operation succeeded. -/
def isOk {α : Type} : Except String α → Bool
  | .ok _ => true
  | .error _ => false

/-! ## Concrete sample data used by the witness theorems -/

/-- A sample manager configuration. -/
def demoManager : Manager :=
  { jwtSecret := "s3cr3t", accessExp := 900, refreshExp := 604800 }

/-- The fixed role rows created by EnsureAdminExists. -/
def demoRoles : List Role :=
  [{ id := 1, name := "admin" }, { id := 2, name := "editor" }, { id := 3, name := "viewer" }]

/-- A sample active editor user. -/
def demoUser : User :=
  { id := 7, email := "u@x.io", passwordHash := bcryptHash "hunter2", roleID := 2, active := true }

/-- A sample deactivated user. -/
def demoInactiveUser : User :=
  { id := 8, email := "off@x.io", passwordHash := bcryptHash "pw", roleID := 3, active := false }

/-- A live refresh-token row for the sample user. -/
def demoRow : RefreshTokenRow :=
  { userID := 7, token := "rt1", expiresAt := 100, revoked := false }

/-- An already-revoked refresh-token row. -/
def demoRevokedRow : RefreshTokenRow :=
  { userID := 7, token := "rt9", expiresAt := 100, revoked := true }

/-- A sample database state with no workspace memberships. -/
def demoDb : DB :=
  { users := [demoUser, demoInactiveUser], roles := demoRoles,
    refreshTokens := [demoRow, demoRevokedRow], userWorkspaces := [] }

/-- Sample claims of a validated non-admin token. -/
def demoViewerClaims : Claims :=
  { userID := 7, email := "v@x.io", roleID := 3, roleName := "viewer",
    workspaceID := 0, expiresAt := 1000, issuedAt := 0, subject := "7" }

/-- A sample token honestly signed by `demoManager`. -/
def demoValidTok : Token :=
  { alg := .HS256, payload := demoViewerClaims,
    sig := Sig.hmac "s3cr3t" .HS256 demoViewerClaims }

/-- `demoValidTok` with its payload altered but the signature kept. -/
def demoTamperedTok : Token :=
  { demoValidTok with
    payload := { demoViewerClaims with roleName := "admin" } }

/-! ## Supporting lemmas -/

/-- The gorm WHERE clause of RefreshToken, read as a proposition. -/
lemma refreshRowMatches_iff (s : String) (now : Int) (rt : RefreshTokenRow) :
    refreshRowMatches s now rt = true ↔
      rt.token = s ∧ rt.revoked = false ∧ now < rt.expiresAt := by
  simp [refreshRowMatches, Bool.and_eq_true, and_assoc]

/-- Appending to a nonempty string yields a nonempty string. -/
lemma string_append_ne_empty (a b : String) (h : a ≠ "") : a ++ b ≠ "" := by
  intro he
  apply h
  cases a with
  | mk la =>
    cases b with
    | mk lb =>
      have hd : la ++ lb = ([] : List Char) := congrArg String.data he
      have hla : la = [] := (List.append_eq_nil.mp hd).1
      simp [hla]

/-- The compact serialization of any token is nonempty. -/
lemma signedString_ne_empty (t : Token) : t.signedString ≠ "" := by
  have halg : encodeAlg t.alg ≠ "" := by
    cases t.alg <;> simp [encodeAlg]
  unfold Token.signedString
  exact string_append_ne_empty _ _
    (string_append_ne_empty _ _
      (string_append_ne_empty _ _ (string_append_ne_empty _ _ halg)))

/-- Characterization of successful validation: HMAC-family header, the
ideal MAC of the token's own header and payload under the manager's
secret, and a strictly-future expiry. -/
lemma validateToken_isOk_iff (m : Manager) (now : Int) (t : Token) :
    isOk (m.ValidateToken now t) = true ↔
      (t.alg.isHMAC = true ∧ t.sig = Sig.hmac m.jwtSecret t.alg t.payload ∧
       now < t.payload.expiresAt) := by
  by_cases h1 : t.alg.isHMAC = false
  · simp [Manager.ValidateToken, h1, isOk]
  · simp only [Bool.not_eq_false] at h1
    by_cases h2 : t.sig = Sig.hmac m.jwtSecret t.alg t.payload
    · by_cases h3 : now < t.payload.expiresAt
      · simp [Manager.ValidateToken, h1, h2, h3, isOk]
      · simp [Manager.ValidateToken, h1, h2, h3, isOk]
    · simp [Manager.ValidateToken, h1, h2, isOk]

/-! ## Claim theorems -/

/-- C1: For every access token, ValidateToken succeeds iff the token
has not expired and is signed with the expected secret and expected
(HMAC-family, as enforced by the keyfunc) algorithm; in particular a
token whose signing algorithm is not HMAC is rejected, and altering a
valid token's signed content without its signature, or its signature
without its content, makes ValidateToken fail. -/
theorem validateToken_correctness (m : Manager) (now : Int) :
    (∀ t : Token, isOk (m.ValidateToken now t) = true ↔
        (t.alg.isHMAC = true ∧ t.sig = Sig.hmac m.jwtSecret t.alg t.payload ∧
         now < t.payload.expiresAt)) ∧
    (∀ t : Token, t.alg.isHMAC = false → isOk (m.ValidateToken now t) = false) ∧
    (∀ t t2 : Token, isOk (m.ValidateToken now t) = true → t2 ≠ t →
        (t2.sig = t.sig ∨ (t2.alg = t.alg ∧ t2.payload = t.payload)) →
        isOk (m.ValidateToken now t2) = false) := by
  refine ⟨validateToken_isOk_iff m now, fun t h => ?_, fun t t2 hok hne hcase => ?_⟩
  · cases hv : isOk (m.ValidateToken now t) with
    | false => rfl
    | true =>
      obtain ⟨h1, -, -⟩ := (validateToken_isOk_iff m now t).mp hv
      rw [h] at h1
      cases h1
  · obtain ⟨h1, h2, h3⟩ := (validateToken_isOk_iff m now t).mp hok
    cases hv : isOk (m.ValidateToken now t2) with
    | false => rfl
    | true =>
      obtain ⟨g1, g2, g3⟩ := (validateToken_isOk_iff m now t2).mp hv
      exfalso
      rcases hcase with hs | ⟨ha, hp⟩
      · have e : Sig.hmac m.jwtSecret t.alg t.payload =
            Sig.hmac m.jwtSecret t2.alg t2.payload := by
          rw [← h2, ← hs]
          exact g2
        injection e with ekey ealg epayload
        apply hne
        cases t2
        cases t
        simp_all
      · apply hne
        have hss : t2.sig = t.sig := by
          rw [g2, ha, hp, ← h2]
        cases t2
        cases t
        simp_all

/-- Witness for C1 at concrete tokens: the honestly signed sample token
validates, and the same token with an altered payload (signature kept)
is rejected. -/
theorem validateToken_correctness_witness :
    isOk (demoManager.ValidateToken 50 demoValidTok) = true ∧
    isOk (demoManager.ValidateToken 50 demoTamperedTok) = false :=
  ⟨((validateToken_correctness demoManager 50).1 demoValidTok).mpr (by decide),
   (validateToken_correctness demoManager 50).2.2 demoValidTok demoTamperedTok
     (((validateToken_correctness demoManager 50).1 demoValidTok).mpr (by decide))
     (by decide) (Or.inl rfl)⟩

/-- C10: A token whose expiry instant equals the validation instant is
rejected: validity requires now strictly before expires_at. -/
theorem validateToken_expiry_boundary (m : Manager) (t : Token) (now : Int)
    (h : t.payload.expiresAt = now) : isOk (m.ValidateToken now t) = false := by
  have hlt : ¬ now < t.payload.expiresAt := by omega
  by_cases h1 : t.alg.isHMAC = false
  · simp [Manager.ValidateToken, h1, isOk]
  · by_cases h2 : t.sig = Sig.hmac m.jwtSecret t.alg t.payload
    · simp [Manager.ValidateToken, h1, h2, hlt, isOk]
    · simp [Manager.ValidateToken, h1, h2, isOk]

/-- Witness for C10: the sample token, which validates at instant 50,
is rejected at instant 1000, exactly its expires_at. -/
theorem validateToken_expiry_boundary_witness :
    isOk (demoManager.ValidateToken 1000 demoValidTok) = false :=
  validateToken_expiry_boundary demoManager demoValidTok 1000 rfl

/-- C5: Every access token minted by generateAccessToken carries
WorkspaceID = 0 in its claims, and the RequireWorkspace gate, whose
non-admin branch denies only a nonzero differing workspace claim,
allows every request whose claims carry WorkspaceID = 0 (for any
requested workspace id). -/
theorem minted_tokens_pass_workspace_gate (m : Manager) :
    (∀ (now : Int) (u : User) (rn : String),
        (m.generateAccessToken now u rn).payload.workspaceID = 0) ∧
    (∀ (c : Claims) (ws : String), c.workspaceID = 0 → ws ≠ "" →
        RequireWorkspace c ws = .allow) := by
  constructor
  · intro now u rn
    rfl
  · intro c ws h0 hws
    have hne : (ws == "") = false := by
      simp [hws]
    simp [RequireWorkspace, hne, h0]

/-- Witness for C5: a freshly minted token for the sample non-admin
user carries workspace claim 0 and passes the gate for workspace 5. -/
theorem minted_tokens_pass_workspace_gate_witness :
    (demoManager.generateAccessToken 0 demoUser "editor").payload.workspaceID = 0 ∧
    RequireWorkspace (demoManager.generateAccessToken 0 demoUser "editor").payload "5" =
      .allow :=
  ⟨(minted_tokens_pass_workspace_gate demoManager).1 0 demoUser "editor",
   (minted_tokens_pass_workspace_gate demoManager).2
     (demoManager.generateAccessToken 0 demoUser "editor").payload "5"
     ((minted_tokens_pass_workspace_gate demoManager).1 0 demoUser "editor")
     (by decide)⟩

/-- C2 (code evaluated at the failing input): a validated non-admin
user with no row at all in the user_workspaces table is allowed
through the workspace gate for workspace 5 — RequireWorkspace never
consults the membership table. -/
theorem requireWorkspace_skips_membership_lookup :
    RequireWorkspace demoViewerClaims "5" = .allow ∧
    hasMembership demoDb demoViewerClaims.userID 5 = false ∧
    demoViewerClaims.roleName ≠ "admin" := by
  decide

/-- C3: Login returns the identical generic error for an unknown email
and for a wrong password on an active account; a deactivated account is
the only case with a distinct message (the active check runs before the
password check). -/
theorem login_error_uniformity (m : Manager) (db : DB) (now : Int)
    (fresh email pw : String) :
    (db.users.find? (fun u => u.email == email) = none →
        m.Login db now fresh email pw = .error "invalid credentials") ∧
    (∀ u : User, db.users.find? (fun x => x.email == email) = some u →
        u.active = true → bcryptCompare u.passwordHash pw = false →
        m.Login db now fresh email pw = .error "invalid credentials") ∧
    (∀ u : User, db.users.find? (fun x => x.email == email) = some u →
        u.active = false →
        m.Login db now fresh email pw = .error "user account is deactivated") := by
  refine ⟨fun h => ?_, fun u hu ha hp => ?_, fun u hu ha => ?_⟩
  · simp [Manager.Login, h]
  · simp [Manager.Login, hu, ha, hp]
  · simp [Manager.Login, hu, ha]

/-- Witness for C3: in the sample database, an unknown email and a
wrong password for the active user produce the same error, and the
deactivated user produces the distinct one. -/
theorem login_error_uniformity_witness :
    demoManager.Login demoDb 0 "fresh" "ghost@x.io" "pw" =
      .error "invalid credentials" ∧
    demoManager.Login demoDb 0 "fresh" "u@x.io" "wrong" =
      .error "invalid credentials" ∧
    demoManager.Login demoDb 0 "fresh" "off@x.io" "pw" =
      .error "user account is deactivated" :=
  ⟨(login_error_uniformity demoManager demoDb 0 "fresh" "ghost@x.io" "pw").1
     (by decide),
   (login_error_uniformity demoManager demoDb 0 "fresh" "u@x.io" "wrong").2.1
     demoUser (by decide) (by decide) (by decide),
   (login_error_uniformity demoManager demoDb 0 "fresh" "off@x.io" "pw").2.2
     demoInactiveUser (by decide) (by decide)⟩

/-- C9: Login for an active user with a verifying password returns a
non-empty access token that validates (at issuance time, with a
positive configured lifetime) to claims carrying the user's stored id,
email, role id and role name. -/
theorem login_success_token_claims (m : Manager) (db : DB) (now : Int)
    (fresh email pw : String) (u : User) (r : Role)
    (hu : db.users.find? (fun x => x.email == email) = some u)
    (hact : u.active = true)
    (hpw : bcryptCompare u.passwordHash pw = true)
    (hr : db.roles.find? (fun x => x.id == u.roleID) = some r)
    (hexp : 0 < m.accessExp) :
    ∃ (t : Token) (rs : String) (db2 : DB),
      m.Login db now fresh email pw = .ok (t, rs, db2) ∧
      t.signedString ≠ "" ∧
      m.ValidateToken now t = .ok t.payload ∧
      t.payload.userID = u.id ∧ t.payload.email = u.email ∧
      t.payload.roleID = u.roleID ∧ t.payload.roleName = r.name := by
  have hlt : now < now + m.accessExp := by omega
  refine ⟨m.generateAccessToken now u (loadRoleName db u.roleID), fresh,
    { db with refreshTokens := db.refreshTokens ++
        [{ userID := u.id, token := fresh,
           expiresAt := now + m.refreshExp, revoked := false }] },
    ?_, signedString_ne_empty _, ?_, rfl, rfl, rfl, ?_⟩
  · simp [Manager.Login, hu, hact, hpw]
  · simp [Manager.ValidateToken, Manager.generateAccessToken, Alg.isHMAC, hlt]
  · simp [Manager.generateAccessToken, loadRoleName, hr]

/-- Witness for C9: logging the sample editor in with the correct
password yields a validating token with the stored identity. -/
theorem login_success_token_claims_witness :
    ∃ (t : Token) (rs : String) (db2 : DB),
      demoManager.Login demoDb 0 "fresh" "u@x.io" "hunter2" = .ok (t, rs, db2) ∧
      t.signedString ≠ "" ∧
      demoManager.ValidateToken 0 t = .ok t.payload ∧
      t.payload.userID = demoUser.id ∧ t.payload.email = demoUser.email ∧
      t.payload.roleID = demoUser.roleID ∧ t.payload.roleName = "editor" :=
  login_success_token_claims demoManager demoDb 0 "fresh" "u@x.io" "hunter2"
    demoUser { id := 2, name := "editor" }
    (by decide) (by decide) (by decide) (by decide) (by decide)

/-- When at least one row carries the token string, RevokeToken
returns the database with every such row's revoked flag set. -/
lemma revokeToken_ok (m : Manager) (db : DB) (s : String)
    (hc : db.refreshTokens.countP (fun rt => rt.token == s) ≠ 0) :
    m.RevokeToken db s = .ok { db with refreshTokens :=
      (db.refreshTokens.map
        (fun rt => if rt.token == s then { rt with revoked := true } else rt)) } := by
  unfold Manager.RevokeToken
  simp [hc]

/-- If a refresh row is found at instant `now`, then at any instant
between `now` and that row's expiry some row is still found: earlier
rows that failed the WHERE clause at `now` cannot start matching
later, and the found row itself stays live until its expiry. -/
lemma find?_refresh_persists (l : List RefreshTokenRow) (s : String) (now now2 : Int)
    (rt : RefreshTokenRow) (h : l.find? (refreshRowMatches s now) = some rt)
    (h1 : now ≤ now2) (h2 : now2 < rt.expiresAt) :
    ∃ rt2, l.find? (refreshRowMatches s now2) = some rt2 := by
  induction l with
  | nil => simp at h
  | cons a tl ih =>
    by_cases ha : refreshRowMatches s now a = true
    · rw [List.find?_cons_of_pos tl ha] at h
      injection h with h
      subst h
      obtain ⟨t1, t2, -⟩ := (refreshRowMatches_iff s now a).mp ha
      have ha2 : refreshRowMatches s now2 a = true :=
        (refreshRowMatches_iff s now2 a).mpr ⟨t1, t2, h2⟩
      exact ⟨a, List.find?_cons_of_pos tl ha2⟩
    · have ha2 : ¬ refreshRowMatches s now2 a = true := by
        intro hc
        obtain ⟨t1, t2, t3⟩ := (refreshRowMatches_iff s now2 a).mp hc
        exact ha ((refreshRowMatches_iff s now a).mpr ⟨t1, t2, by omega⟩)
      rw [List.find?_cons_of_neg tl (by simpa using ha)] at h
      obtain ⟨rt2, hrt2⟩ := ih h
      exact ⟨rt2, by rw [List.find?_cons_of_neg tl (by simpa using ha2)]; exact hrt2⟩

/-- C4: RefreshToken succeeds exactly when a stored row matches the
string with revoked = false and expires_at strictly after now; every
non-match yields the generic `invalid refresh token` error; and after a
successful RevokeToken on the string, RefreshToken with it fails at
every instant with that same generic error. -/
theorem refreshToken_validity_and_revocation (m : Manager) (db : DB) (now : Int)
    (s : String) :
    (isOk (m.RefreshToken db now s) = true ↔
      ∃ rt ∈ db.refreshTokens,
        rt.token = s ∧ rt.revoked = false ∧ now < rt.expiresAt) ∧
    (isOk (m.RefreshToken db now s) = false →
      m.RefreshToken db now s = .error "invalid refresh token") ∧
    (∀ db2 : DB, m.RevokeToken db s = .ok db2 → ∀ now2 : Int,
      m.RefreshToken db2 now2 s = .error "invalid refresh token") := by
  refine ⟨?_, ?_, ?_⟩
  · cases hf : db.refreshTokens.find? (refreshRowMatches s now) with
    | none =>
      simp only [Manager.RefreshToken, hf, isOk]
      constructor
      · intro hc
        cases hc
      · rintro ⟨rt, hmem, t1, t2, t3⟩
        exact absurd ((refreshRowMatches_iff s now rt).mpr ⟨t1, t2, t3⟩)
          (List.find?_eq_none.mp hf rt hmem)
    | some rt =>
      simp only [Manager.RefreshToken, hf, isOk]
      constructor
      · intro _
        obtain ⟨t1, t2, t3⟩ := (refreshRowMatches_iff s now rt).mp (List.find?_some hf)
        exact ⟨rt, List.mem_of_find?_eq_some hf, t1, t2, t3⟩
      · intro _
        trivial
  · intro h
    cases hf : db.refreshTokens.find? (refreshRowMatches s now) with
    | none => simp [Manager.RefreshToken, hf]
    | some rt => simp [Manager.RefreshToken, hf, isOk] at h
  · intro db2 h now2
    unfold Manager.RevokeToken at h
    by_cases hc : db.refreshTokens.countP (fun rt => rt.token == s) = 0
    · simp [hc] at h
    · simp only [hc, if_neg, ite_false] at h
      injection h with h
      have hnone : db2.refreshTokens.find? (refreshRowMatches s now2) = none := by
        rw [← h]
        apply List.find?_eq_none.mpr
        intro rt hrt
        simp only [List.mem_map] at hrt
        obtain ⟨x, -, rfl⟩ := hrt
        by_cases ht : x.token == s
        · simp [ht, refreshRowMatches]
        · simp [ht, refreshRowMatches]
      simp [Manager.RefreshToken, hnone]

/-- Witness for C4: the live sample row makes RefreshToken succeed at
instant 50, and after RevokeToken on it the refresh fails. -/
theorem refreshToken_validity_and_revocation_witness :
    isOk (demoManager.RefreshToken demoDb 50 "rt1") = true ∧
    demoManager.RefreshToken
      { demoDb with refreshTokens :=
          [{ demoRow with revoked := true }, demoRevokedRow] } 50 "rt1" =
      .error "invalid refresh token" :=
  ⟨((refreshToken_validity_and_revocation demoManager demoDb 50 "rt1").1).mpr
     ⟨demoRow, by decide, by decide, by decide, by decide⟩,
   (refreshToken_validity_and_revocation demoManager demoDb 50 "rt1").2.2
     { demoDb with refreshTokens :=
         [{ demoRow with revoked := true }, demoRevokedRow] }
     (by rfl) 50⟩

/-- C6: A successful refresh mints claims whose role id and role name
are the owning user's role as currently stored in the database at the
time of the call. -/
theorem refreshToken_uses_current_role (m : Manager) (db : DB) (now : Int)
    (s : String) (rt : RefreshTokenRow) (u : User) (r : Role)
    (hrt : db.refreshTokens.find? (refreshRowMatches s now) = some rt)
    (hu : db.users.find? (fun x => x.id == rt.userID) = some u)
    (hr : db.roles.find? (fun x => x.id == u.roleID) = some r) :
    ∃ t : Token, m.RefreshToken db now s = .ok (t, db) ∧
      t.payload.userID = u.id ∧ t.payload.roleID = u.roleID ∧
      t.payload.roleName = r.name := by
  refine ⟨m.generateAccessToken now u (loadRoleName db u.roleID), ?_, rfl, rfl, ?_⟩
  · simp [Manager.RefreshToken, hrt, hu]
  · simp [Manager.generateAccessToken, loadRoleName, hr]

/-- Witness for C6: the sample user's stored role is `editor`, so the
token refreshed from the live sample row carries `editor`, whatever
role any earlier token carried. -/
theorem refreshToken_uses_current_role_witness :
    ∃ t : Token, demoManager.RefreshToken demoDb 50 "rt1" = .ok (t, demoDb) ∧
      t.payload.userID = demoUser.id ∧ t.payload.roleID = demoUser.roleID ∧
      t.payload.roleName = "editor" :=
  refreshToken_uses_current_role demoManager demoDb 50 "rt1" demoRow demoUser
    { id := 2, name := "editor" } (by decide) (by decide) (by decide)

/-- C7: A successful RefreshToken call performs no store write: the
database (hence the matching row's token string, expiry and revoked
flag) is returned unchanged, and the same refresh token keeps
succeeding at every instant up to the matched row's own expiry. -/
theorem refreshToken_no_rotation (m : Manager) (db : DB) (now : Int) (s : String)
    (t : Token) (db2 : DB) (h : m.RefreshToken db now s = .ok (t, db2)) :
    db2 = db ∧ ∃ rt, db.refreshTokens.find? (refreshRowMatches s now) = some rt ∧
      ∀ now2 : Int, now ≤ now2 → now2 < rt.expiresAt →
        isOk (m.RefreshToken db2 now2 s) = true := by
  cases hf : db.refreshTokens.find? (refreshRowMatches s now) with
  | none => simp [Manager.RefreshToken, hf] at h
  | some rt =>
    simp only [Manager.RefreshToken, hf] at h
    injection h with h
    have hdb : db2 = db := (congrArg Prod.snd h).symm
    refine ⟨hdb, rt, rfl, fun now2 hle hlt => ?_⟩
    obtain ⟨rt2, hrt2⟩ := find?_refresh_persists db.refreshTokens s now now2 rt hf hle hlt
    rw [hdb]
    simp [Manager.RefreshToken, hrt2, isOk]

/-- Witness for C7: the successful refresh at instant 50 leaves the
sample database unchanged and still succeeds at instant 99, just
before the row's expiry 100. -/
theorem refreshToken_no_rotation_witness :
    ∃ rt, demoDb.refreshTokens.find? (refreshRowMatches "rt1" 50) = some rt ∧
      isOk (demoManager.RefreshToken demoDb 99 "rt1") = true := by
  obtain ⟨-, rt, hrt, hall⟩ :=
    refreshToken_no_rotation demoManager demoDb 50 "rt1"
      (demoManager.generateAccessToken 50 demoUser "editor") demoDb (by rfl)
  exact ⟨rt, hrt, by
    have h99 : rt = demoRow := by
      have : demoDb.refreshTokens.find? (refreshRowMatches "rt1" 50) = some demoRow := by
        decide
      rw [this] at hrt
      injection hrt with hrt
      exact hrt.symm
    exact hall 99 (by decide) (by rw [h99]; decide)⟩

/-- C8: RevokeToken fails with the distinct `token not found` error
exactly when no row carries the token string; any row with the string
(already revoked or not) makes it succeed, and a second revocation of
the same existing token succeeds as well. -/
theorem revokeToken_spec (m : Manager) (db : DB) (s : String) :
    ((¬ ∃ rt ∈ db.refreshTokens, rt.token = s) →
        m.RevokeToken db s = .error "token not found") ∧
    ((∃ rt ∈ db.refreshTokens, rt.token = s) →
        ∃ db2, m.RevokeToken db s = .ok db2) ∧
    (∀ db2 : DB, m.RevokeToken db s = .ok db2 →
        ∃ db3, m.RevokeToken db2 s = .ok db3) := by
  refine ⟨fun h => ?_, fun h => ?_, fun db2 h => ?_⟩
  · have hc : db.refreshTokens.countP (fun rt => rt.token == s) = 0 := by
      apply List.countP_eq_zero.mpr
      intro a ha
      simp only [beq_iff_eq]
      intro he
      exact h ⟨a, ha, he⟩
    simp [Manager.RevokeToken, hc]
  · obtain ⟨rt, hmem, he⟩ := h
    have hc : db.refreshTokens.countP (fun x => x.token == s) ≠ 0 := by
      intro h0
      exact absurd (by simpa using he)
        (by simpa using List.countP_eq_zero.mp h0 rt hmem)
    exact ⟨_, revokeToken_ok m db s hc⟩
  · unfold Manager.RevokeToken at h
    by_cases hc : db.refreshTokens.countP (fun rt => rt.token == s) = 0
    · simp [hc] at h
    · simp only [hc, ite_false] at h
      injection h with h
      have hex : ∃ rt ∈ db.refreshTokens, rt.token = s := by
        by_contra hno
        exact hc (List.countP_eq_zero.mpr fun a ha => by
          simp only [beq_iff_eq]
          exact fun he => hno ⟨a, ha, he⟩)
      obtain ⟨rt, hmem, he⟩ := hex
      have hc2 : db2.refreshTokens.countP (fun x => x.token == s) ≠ 0 := by
        intro h0
        have hmem2 : (if rt.token == s then { rt with revoked := true } else rt) ∈
            db2.refreshTokens := by
          rw [← h]
          exact List.mem_map.mpr ⟨rt, hmem, rfl⟩
        have := List.countP_eq_zero.mp h0 _ hmem2
        simp [he] at this
      exact ⟨_, revokeToken_ok m db2 s hc2⟩

/-- Witness for C8: revoking an unknown token fails with the distinct
error, revoking the already-revoked sample row succeeds, and after a
successful revocation of the live row a second revocation succeeds. -/
theorem revokeToken_spec_witness :
    demoManager.RevokeToken demoDb "ghost" = .error "token not found" ∧
    (∃ db2, demoManager.RevokeToken demoDb "rt9" = .ok db2) ∧
    (∃ db3, demoManager.RevokeToken
      { demoDb with refreshTokens :=
          [{ demoRow with revoked := true }, demoRevokedRow] } "rt1" = .ok db3) :=
  ⟨(revokeToken_spec demoManager demoDb "ghost").1 (by decide),
   (revokeToken_spec demoManager demoDb "rt9").2.1
     ⟨demoRevokedRow, by decide, by decide⟩,
   (revokeToken_spec demoManager demoDb "rt1").2.2
     { demoDb with refreshTokens :=
         [{ demoRow with revoked := true }, demoRevokedRow] }
     (by rfl)⟩

end FloeCMS
